import Mathlib

/-!
Verification development for the GS-232B rotor interface server.

The definitions below are a shallow embedding of the Python sources:
  server/control/math_utils.py     (clamp, wrap_azimuth, shortest_angular_delta,
                                    interpolate_calibration, inverse_interpolate_calibration)
  server/control/rotor_logic.py    (RotorLogic: set_target, stop_motion,
                                    _get_calibrated_status, _send_direct_target,
                                    _handle_target_ramp, _handle_manual_ramp,
                                    _handle_soft_stop, _control_loop body)
  server/connection/serial_connection.py (RotorConnection: send_command,
                                    _reconnect_loop body, connect reset)
  python_server.py                 (_calibrate_value)

Python floats are modelled as rationals; fallible operations (division by
zero, sending while disconnected) return an Except value whose error
constructor names the Python exception.
-/

/-- Errors raised by the embedded Python code paths. -/
inductive PyErr where
  | notConnected
  | zeroDivision
deriving DecidableEq

/-- Python division: raises ZeroDivisionError on a zero divisor. -/
def qdiv (a b : ℚ) : Except PyErr ℚ :=
  if b = 0 then .error .zeroDivision else .ok (a / b)

/-- Python modulo on floats: a % b = a - b * floor(a / b); raises on b = 0. -/
def pymod (a b : ℚ) : Except PyErr ℚ :=
  if b = 0 then .error .zeroDivision else .ok (a - b * ⌊a / b⌋)

/-- math_utils.clamp. -/
def clamp (value minVal maxVal : ℚ) : ℚ :=
  max minVal (min value maxVal)

/-- math_utils.wrap_azimuth: ((value % range) + range) % range. -/
def wrap_azimuth (value rangeVal : ℚ) : Except PyErr ℚ := do
  let m ← pymod value rangeVal
  pymod (m + rangeVal) rangeVal

/-- The first while loop of shortest_angular_delta:
while delta > range/2: delta -= range. -/
def loopHigh (r : ℚ) (hr : 0 < r) (d : ℚ) : ℚ :=
  if d > r / 2 then loopHigh r hr (d - r) else d
termination_by (⌈(d - r / 2) / r⌉).toNat
decreasing_by
  have h1 : (0:ℚ) < (d - r / 2) / r := div_pos (by linarith) hr
  have h2 : (d - r - r / 2) / r = (d - r / 2) / r - 1 := by
    field_simp
    ring
  have h3 : (1:ℤ) ≤ ⌈(d - r / 2) / r⌉ := Int.one_le_ceil_iff.mpr h1
  have h4 : ⌈(d - r - r / 2) / r⌉ = ⌈(d - r / 2) / r⌉ - 1 := by
    rw [h2, Int.ceil_sub_one]
  omega

/-- The second while loop of shortest_angular_delta:
while delta < -range/2: delta += range. -/
def loopLow (r : ℚ) (hr : 0 < r) (d : ℚ) : ℚ :=
  if d < -(r / 2) then loopLow r hr (d + r) else d
termination_by (⌈(-(r / 2) - d) / r⌉).toNat
decreasing_by
  have h1 : (0:ℚ) < (-(r / 2) - d) / r := div_pos (by linarith) hr
  have h2 : (-(r / 2) - (d + r)) / r = (-(r / 2) - d) / r - 1 := by
    field_simp
    ring
  have h3 : (1:ℤ) ≤ ⌈(-(r / 2) - d) / r⌉ := Int.one_le_ceil_iff.mpr h1
  have h4 : ⌈(-(r / 2) - (d + r)) / r⌉ = ⌈(-(r / 2) - d) / r⌉ - 1 := by
    rw [h2, Int.ceil_sub_one]
  omega

/-- math_utils.shortest_angular_delta. Returns 0 when either side is None,
target - current when the range is falsy or nonpositive, and otherwise the
value of the two reduction loops. -/
def shortest_angular_delta (target current : Option ℚ) (rangeVal : ℚ) : ℚ :=
  match target, current with
  | some t, some c =>
    if h : rangeVal ≤ 0 then t - c
    else loopLow rangeVal (lt_of_not_le h) (loopHigh rangeVal (lt_of_not_le h) (t - c))
  | _, _ => 0

theorem loopHigh_le (r : ℚ) (hr : 0 < r) (d : ℚ) : loopHigh r hr d ≤ r / 2 := by
  induction d using loopHigh.induct r hr with
  | case1 d h ih =>
    rw [loopHigh]
    simpa [h] using ih
  | case2 d h =>
    rw [loopHigh]
    simp only [h, if_false]
    linarith [not_lt.mp h]

theorem loopLow_ge (r : ℚ) (hr : 0 < r) (d : ℚ) : -(r / 2) ≤ loopLow r hr d := by
  induction d using loopLow.induct r hr with
  | case1 d h ih =>
    rw [loopLow]
    simpa [h] using ih
  | case2 d h =>
    rw [loopLow]
    simp only [h, if_false]
    linarith [not_lt.mp h]

theorem loopLow_le (r : ℚ) (hr : 0 < r) (d : ℚ) :
    d ≤ r / 2 → loopLow r hr d ≤ r / 2 := by
  induction d using loopLow.induct r hr with
  | case1 d h ih =>
    intro hd
    rw [loopLow]
    simp only [h, if_true]
    exact ih (by linarith)
  | case2 d h =>
    intro hd
    rw [loopLow]
    simpa [h] using hd

theorem shortest_angular_delta_mem (t c r : ℚ) (hr : 0 < r) :
    -(r / 2) ≤ shortest_angular_delta (some t) (some c) r ∧
      shortest_angular_delta (some t) (some c) r ≤ r / 2 := by
  have hnr : ¬ r ≤ 0 := not_le.mpr hr
  constructor
  · simp only [shortest_angular_delta, hnr, dif_neg]
    exact loopLow_ge r hr _
  · simp only [shortest_angular_delta, hnr, dif_neg]
    exact loopLow_le r hr _ (loopHigh_le r hr _)

/-- A calibration point: a dict with keys "raw" and "actual". -/
structure CalPoint where
  raw : ℚ
  actual : ℚ
deriving DecidableEq

/-- Ordering of (key, value) pairs by key, as used by Python
sorted(points, key=lambda p: p.get(k, 0)). -/
def keyLE (a b : ℚ × ℚ) : Prop := a.1 ≤ b.1

instance : DecidableRel keyLE := fun a b => inferInstanceAs (Decidable (a.1 ≤ b.1))

instance : IsTotal (ℚ × ℚ) keyLE := ⟨fun a b => le_total a.1 b.1⟩

instance : IsTrans (ℚ × ℚ) keyLE := ⟨fun _ _ _ h1 h2 => le_trans h1 h2⟩

/-- Python's sorted() is a stable sort; a stable sort with respect to a total
preorder is extensionally unique, so insertion sort (which is stable) models it
exactly. -/
def sortByKey (l : List (ℚ × ℚ)) : List (ℚ × ℚ) :=
  List.insertionSort keyLE l

/-- Last two elements of p :: q :: rest, i.e. (vals[-2], vals[-1]). -/
def lastTwo (p q : ℚ × ℚ) : List (ℚ × ℚ) → (ℚ × ℚ) × (ℚ × ℚ)
  | [] => (p, q)
  | r :: rs => lastTwo q r rs

/-- The interior scan of interpolate_calibration: the for-loop that returns at
the first index i with vals[i] <= x <= vals[i+1], linearly interpolating there
(with the vals[i+1] == vals[i] guard), and falls through to None. -/
def segScan (k : ℚ) (p : ℚ × ℚ) : List (ℚ × ℚ) → Except PyErr (Option ℚ)
  | [] => .ok none
  | q :: rs =>
    if p.1 ≤ k ∧ k ≤ q.1 then
      if q.1 = p.1 then .ok (some p.2)
      else (qdiv (k - p.1) (q.1 - p.1)).map (fun t => some (p.2 + t * (q.2 - p.2)))
    else segScan k q rs

/-- Shared body of interpolate_calibration / inverse_interpolate_calibration on
an already-sorted list of (key, value) pairs: extrapolate below the first
point with the slope of the first two, above the last point with the slope of
the last two, otherwise interpolate in the first bracketing segment. -/
def interpCore (k : ℚ) : List (ℚ × ℚ) → Except PyErr (Option ℚ)
  | p0 :: p1 :: rest =>
    if k ≤ p0.1 then
      (qdiv (p1.2 - p0.2) (p1.1 - p0.1)).map
        (fun slope => some (p0.2 + slope * (k - p0.1)))
    else
      let lt2 := lastTwo p0 p1 rest
      if lt2.2.1 ≤ k then
        (qdiv (lt2.2.2 - lt2.1.2) (lt2.2.1 - lt2.1.1)).map
          (fun slope => some (lt2.2.2 + slope * (k - lt2.2.1)))
      else segScan k p0 (p1 :: rest)
  | _ => .ok none

/-- math_utils.interpolate_calibration: raw -> actual. Returns None for fewer
than 2 points; sorts by the raw key. -/
def interpolate_calibration (rawValue : ℚ) (pts : List CalPoint) :
    Except PyErr (Option ℚ) :=
  if pts.length < 2 then .ok none
  else interpCore rawValue (sortByKey (pts.map (fun p => (p.raw, p.actual))))

/-- math_utils.inverse_interpolate_calibration: actual -> raw. Same algorithm
with the axes swapped, sorted by the actual key. -/
def inverse_interpolate_calibration (actualValue : ℚ) (pts : List CalPoint) :
    Except PyErr (Option ℚ) :=
  if pts.length < 2 then .ok none
  else interpCore actualValue (sortByKey (pts.map (fun p => (p.actual, p.raw))))

/-- python_server._calibrate_value: linear raw -> calibrated conversion with a
guard replacing a near-zero scale by 1.0. -/
def calibrate_value (rawValue : Option ℚ) (offset scale : ℚ) :
    Except PyErr (Option ℚ) :=
  match rawValue with
  | none => .ok none
  | some r =>
    let safeScale := if |scale| > 1 / 1000000000 then scale else 1
    (qdiv (r + offset) safeScale).map some

/-- Whether a command string already ends with a carriage return
(models str.endswith with a single-character suffix). -/
def endsWithCarriageReturn (s : String) : Bool :=
  s.data.getLast? = some '\r'

/-- The latest StatusSample held by RotorConnection: a parsed status dict with
optional azimuthRaw / elevationRaw fields. -/
structure StatusSample where
  azimuthRaw : Option ℚ
  elevationRaw : Option ℚ
deriving DecidableEq

/-- The parts of RotorConnection visible to RotorLogic: the is_connected()
flag (serial handle present and open) and the latest status sample. -/
structure Conn where
  connected : Bool
  status : Option StatusSample
deriving DecidableEq

/-- RotorConnection.send_command: raises when not connected, otherwise
appends a carriage return unless one is already present, and writes the
resulting bytes. The returned string is what is written to the wire. -/
def send_command (conn : Conn) (command : String) : Except PyErr String :=
  if ¬ conn.connected then .error .notConnected
  else .ok (if endsWithCarriageReturn command then command else command ++ "\r")

/-- Delay computed by RotorConnection._reconnect_loop before attempt n:
min(base * 1.5 ** max(n - 1, 0), maxDelay). -/
def reconnect_delay (baseDelay maxDelay : ℚ) (attempt : ℤ) : ℚ :=
  min (baseDelay * (3 / 2) ^ (max (attempt - 1) 0).toNat) maxDelay

/-- The reconnect-supervisor fields of RotorConnection. statusAttempt and
reconnecting mirror the broadcast reconnect_status dict; lastErrorSet records
whether its lastError field holds a message. -/
structure ReconnectState where
  reconnectActive : Bool
  reconnectEnabled : Bool
  reconnectAttempts : ℤ
  maxReconnectAttempts : ℤ
  reconnecting : Bool
  statusAttempt : ℤ
  lastErrorSet : Bool
deriving DecidableEq

/-- Outcome of one iteration of RotorConnection._reconnect_loop. -/
inductive ReconnectEvent where
  | notActive
  | exhausted
  | aborted
  | succeeded
  | failed
deriving DecidableEq

/-- One iteration of RotorConnection._reconnect_loop. The environment decides
whether the loop is aborted during its sleep and whether serial.Serial(...)
succeeds. Returns the new state, the delay slept before the attempt (none if
no attempt was made) and the outcome. -/
def reconnect_iteration (baseDelay maxDelay : ℚ) (s : ReconnectState)
    (abortDuringSleep openSucceeds : Bool) :
    ReconnectState × Option ℚ × ReconnectEvent :=
  if ¬ (s.reconnectActive ∧ s.reconnectEnabled) then (s, none, .notActive)
  else if 0 < s.maxReconnectAttempts ∧ s.maxReconnectAttempts ≤ s.reconnectAttempts then
    ({ s with reconnecting := false, statusAttempt := s.reconnectAttempts,
              lastErrorSet := true }, none, .exhausted)
  else
    let attempts := s.reconnectAttempts + 1
    let delay := reconnect_delay baseDelay maxDelay attempts
    let s1 := { s with reconnectAttempts := attempts, reconnecting := true,
                       statusAttempt := attempts }
    if abortDuringSleep then (s1, some delay, .aborted)
    else if openSucceeds then
      ({ s1 with reconnecting := false, lastErrorSet := false }, some delay, .succeeded)
    else ({ s1 with lastErrorSet := true }, some delay, .failed)

/-- The reconnect-state effect of an explicit successful RotorConnection.connect:
enables reconnection, resets the attempt counter to 0 and publishes
reconnecting=False, attempt=0. -/
def connect_reset (s : ReconnectState) : ReconnectState :=
  { s with reconnectEnabled := true, reconnectAttempts := 0,
           reconnecting := false, statusAttempt := 0, lastErrorSet := false }

/-- The RotorLogic.config dict. -/
structure RotorConfig where
  azimuthMin : ℚ
  azimuthMax : ℚ
  elevationMin : ℚ
  elevationMax : ℚ
  azimuthMode : ℚ
  azimuthSpeedDegPerSec : ℚ
  elevationSpeedDegPerSec : ℚ
  rampEnabled : Bool
  rampSampleTimeMs : ℚ
  azimuthOffset : ℚ
  elevationOffset : ℚ
  azimuthScaleFactor : ℚ
  elevationScaleFactor : ℚ
deriving DecidableEq

/-- The defaults installed by RotorLogic.__init__. -/
def defaultConfig : RotorConfig :=
  { azimuthMin := 0, azimuthMax := 360, elevationMin := 0, elevationMax := 90,
    azimuthMode := 360, azimuthSpeedDegPerSec := 4, elevationSpeedDegPerSec := 2,
    rampEnabled := false, rampSampleTimeMs := 400,
    azimuthOffset := 0, elevationOffset := 0,
    azimuthScaleFactor := 1, elevationScaleFactor := 1 }

/-- A calibrated status dict {"azimuth": ..., "elevation": ...}. -/
structure CalStatus where
  azimuth : ℚ
  elevation : ℚ
deriving DecidableEq

/-- The mutable per-request state of RotorLogic. -/
structure RotorState where
  target_az : Option ℚ
  target_el : Option ℚ
  manual_direction : Option Char
  stopping : Bool
  stop_phase_start : ℚ
  stop_initial_pos : Option CalStatus
  ramp_start_time : ℚ
deriving DecidableEq

/-- RotorLogic.__init__ state. -/
def initState : RotorState :=
  { target_az := none, target_el := none, manual_direction := none,
    stopping := false, stop_phase_start := 0, stop_initial_pos := none,
    ramp_start_time := 0 }

/-- RotorLogic._get_calibrated_status: None when there is no sample or either
raw field is missing; otherwise divides (raw + offset) by the configured scale
factor for each axis, raising ZeroDivisionError on a zero scale factor. -/
def get_calibrated_status (cfg : RotorConfig) (conn : Conn) :
    Except PyErr (Option CalStatus) :=
  match conn.status with
  | none => .ok none
  | some s =>
    match s.azimuthRaw, s.elevationRaw with
    | some azRaw, some elRaw => do
      let azCal ← qdiv (azRaw + cfg.azimuthOffset) cfg.azimuthScaleFactor
      let elCal ← qdiv (elRaw + cfg.elevationOffset) cfg.elevationScaleFactor
      return some { azimuth := azCal, elevation := elCal }
    | _, _ => .ok none

/-- Python round(): round half to even, as applied by int(round(x)). -/
def pyround (x : ℚ) : ℤ :=
  let f := ⌊x⌋
  let frac := x - f
  if frac < 1 / 2 then f
  else if 1 / 2 < frac then f + 1
  else if Even f then f else f + 1

/-- Python f"{n:03d}": decimal rendering zero-padded to a total width of 3. -/
def fmt3 (n : ℤ) : String :=
  if n < 0 then
    let ds := toString n.natAbs
    "-" ++ String.mk (List.replicate (2 - ds.length) '0') ++ ds
  else
    let ds := toString n.toNat
    String.mk (List.replicate (3 - ds.length) '0') ++ ds

/-- status.get("azimuthRaw", 0) if status else 0, as read by
_send_direct_target / set_target_raw when only elevation is given. -/
def curr_az_raw (conn : Conn) : ℚ :=
  match conn.status with
  | some s => s.azimuthRaw.getD 0
  | none => 0

/-- RotorLogic._send_direct_target: converts calibrated degrees to raw command
values (raw = calibrated * scale - offset), renders 3-digit fields and sends
one M (azimuth only) or W (pair) command. Returns the written command strings. -/
def send_direct_target (cfg : RotorConfig) (conn : Conn) (az el : Option ℚ) :
    Except PyErr (List String) :=
  let vals : List String :=
    (match az with
     | some a => [fmt3 (pyround (a * cfg.azimuthScaleFactor - cfg.azimuthOffset))]
     | none => []) ++
    (match el with
     | some e =>
       (if az.isNone then [fmt3 (pyround (curr_az_raw conn))] else []) ++
         [fmt3 (pyround (e * cfg.elevationScaleFactor - cfg.elevationOffset))]
     | none => [])
  match vals with
  | [v] => (send_command conn ("M" ++ v)).map (fun s => [s])
  | [v0, v1] => (send_command conn ("W" ++ v0 ++ " " ++ v1)).map (fun s => [s])
  | _ => .ok []

/-- Python min(candidates, key=lambda x: abs(x - current)) as a left fold that
keeps the earliest minimum: the running best is replaced only on a strictly
smaller key. -/
def py_min_go (current best : ℚ) : List ℚ → ℚ
  | [] => best
  | c :: cs => py_min_go current (if |c - current| < |best - current| then c else best) cs

/-- The candidates appended after [az] by RotorLogic.set_target in a
wrap-overlap azimuth mode: az + 360 if az + 360 <= mode, then az - 360 if
az > 360 and az - 360 >= 0. -/
def smart_tail (cfg : RotorConfig) (a : ℚ) : List ℚ :=
  (if a + 360 ≤ cfg.azimuthMode then [a + 360] else []) ++
    (if 360 < a ∧ 0 ≤ a - 360 then [a - 360] else [])

/-- The full candidate list [az] ++ tail built by set_target. -/
def smart_candidates (cfg : RotorConfig) (a : ℚ) : List ℚ :=
  a :: smart_tail cfg a

/-- RotorLogic.set_target: smart wrap-overlap disambiguation when
azimuthMode > 360 and a calibrated status is available, then stores the
targets, clears manual/stop state, records the ramp start time, and sends one
direct command when ramping is disabled. -/
def set_target (cfg : RotorConfig) (conn : Conn) (st : RotorState)
    (az el : Option ℚ) (now : ℚ) : Except PyErr (RotorState × List String) := do
  let azResolved : Option ℚ ←
    match az with
    | some a =>
      if 360 < cfg.azimuthMode then do
        let cal ← get_calibrated_status cfg conn
        match cal with
        | some c => pure (some (py_min_go c.azimuth a (smart_tail cfg a)))
        | none => pure (some a)
      else pure (some a)
    | none => pure none
  let st1 : RotorState :=
    { st with target_az := azResolved, target_el := el,
              manual_direction := none, stopping := false,
              ramp_start_time := now }
  if cfg.rampEnabled then
    return (st1, [])
  else do
    let cmds ← send_direct_target cfg conn st1.target_az st1.target_el
    return (st1, cmds)

/-- RotorLogic.stop_motion: clears manual/targets; a no-op when disconnected;
with ramping enabled enters the soft-stop phase, falling back to an immediate
"S" when no calibrated status is available; otherwise sends "S" directly. -/
def stop_motion (cfg : RotorConfig) (conn : Conn) (st : RotorState) (now : ℚ) :
    Except PyErr (RotorState × List String) :=
  let st1 := { st with manual_direction := none, target_az := none,
                       target_el := none }
  if ¬ conn.connected then .ok (st1, [])
  else if cfg.rampEnabled then
    let st2 := { st1 with stopping := true, stop_phase_start := now }
    (get_calibrated_status cfg conn).bind (fun cal =>
      match cal with
      | some c => .ok ({ st2 with stop_initial_pos := some c }, [])
      | none => (send_command conn "S").map
          (fun s => ({ st2 with stopping := false }, [s])))
  else (send_command conn "S").map (fun s => (st1, [s]))

/-- The per-axis results of one _handle_target_ramp tick: the surviving
targets and the next commanded positions (None when the axis is idle or just
reached its target). -/
structure RampStep where
  newTargetAz : Option ℚ
  newTargetEl : Option ℚ
  nextAzTarget : Option ℚ
  nextElTarget : Option ℚ
deriving DecidableEq

/-- The pure part of RotorLogic._handle_target_ramp: for azimuth the shortest
wrap-aware delta, target cleared below 0.5 degrees, otherwise a step of at
most speed * dt toward the target; elevation identical without wrapping. -/
def target_ramp_step (cfg : RotorConfig) (targetAz targetEl : Option ℚ)
    (currentAz currentEl dt : ℚ) : RampStep :=
  let azPart : Option ℚ × Option ℚ :=
    match targetAz with
    | some taz =>
      let delta := shortest_angular_delta (some taz) (some currentAz) cfg.azimuthMode
      if |delta| < 1 / 2 then (none, none)
      else
        let stepCap := cfg.azimuthSpeedDegPerSec * dt
        let step := min |delta| stepCap * (if 0 < delta then 1 else -1)
        (some taz, some (currentAz + step))
    | none => (none, none)
  let elPart : Option ℚ × Option ℚ :=
    match targetEl with
    | some tel =>
      let delta := tel - currentEl
      if |delta| < 1 / 2 then (none, none)
      else
        let stepCap := cfg.elevationSpeedDegPerSec * dt
        let step := min |delta| stepCap * (if 0 < delta then 1 else -1)
        (some tel, some (currentEl + step))
    | none => (none, none)
  { newTargetAz := azPart.1, newTargetEl := elPart.1,
    nextAzTarget := azPart.2, nextElTarget := elPart.2 }

/-- RotorLogic._handle_target_ramp: applies the per-axis step and, when at
least one axis is still moving, sends the pair with the idle axis filled in
from the current position. -/
def handle_target_ramp (cfg : RotorConfig) (conn : Conn) (st : RotorState)
    (currentAz currentEl dt : ℚ) : Except PyErr (RotorState × List String) :=
  let r := target_ramp_step cfg st.target_az st.target_el currentAz currentEl dt
  let st1 := { st with target_az := r.newTargetAz, target_el := r.newTargetEl }
  if r.nextAzTarget.isSome ∨ r.nextElTarget.isSome then
    (send_direct_target cfg conn (some (r.nextAzTarget.getD currentAz))
        (some (r.nextElTarget.getD currentEl))).map (fun cmds => (st1, cmds))
  else .ok (st1, [])

/-- RotorLogic._handle_manual_ramp for the active direction d: soft-start
factor ramping linearly from 0.2 to 1.0 over the first 2 seconds, a bounded
step in the commanded axis, clamped to the configured limits. -/
def handle_manual_ramp (cfg : RotorConfig) (conn : Conn) (d : Char)
    (currentAz currentEl dt elapsed : ℚ) : Except PyErr (List String) :=
  let rampUpTime : ℚ := 2
  let factor := if elapsed < rampUpTime then 1 / 5 + elapsed / rampUpTime * (4 / 5) else 1
  let isAz := d = 'R' ∨ d = 'L'
  let directionSign : ℚ := if d = 'R' ∨ d = 'U' then 1 else -1
  if isAz then
    let stepSize := cfg.azimuthSpeedDegPerSec * dt * factor
    let nextAz0 := currentAz + stepSize * directionSign
    let nextAz1 := if nextAz0 < cfg.azimuthMin then cfg.azimuthMin else nextAz0
    let nextAz2 := if cfg.azimuthMax < nextAz1 then cfg.azimuthMax else nextAz1
    send_direct_target cfg conn (some nextAz2) none
  else
    let stepSize := cfg.elevationSpeedDegPerSec * dt * factor
    let nextEl := clamp (currentEl + stepSize * directionSign)
      cfg.elevationMin cfg.elevationMax
    send_direct_target cfg conn none (some nextEl)

/-- RotorLogic._handle_soft_stop: after the 1-second ramp-down window clears
the stopping flag and sends the final "S". -/
def handle_soft_stop (conn : Conn) (st : RotorState) (now : ℚ) :
    Except PyErr (RotorState × List String) :=
  let elapsed := now - st.stop_phase_start
  let rampDownTime : ℚ := 1
  if rampDownTime ≤ elapsed then
    (send_command conn "S").map (fun s => ({ st with stopping := false }, [s]))
  else .ok (st, [])

/-- The body of one iteration of RotorLogic._control_loop: defers when
disconnected, when ramping is disabled, or when no calibrated status is
available; otherwise dispatches to the manual / goto / soft-stop handler. -/
def control_tick (cfg : RotorConfig) (conn : Conn) (st : RotorState) (now : ℚ) :
    Except PyErr (RotorState × List String) :=
  if ¬ conn.connected then .ok (st, [])
  else if ¬ cfg.rampEnabled then .ok (st, [])
  else
    (get_calibrated_status cfg conn).bind (fun cal =>
      match cal with
      | none => .ok (st, [])
      | some c =>
        let dt := cfg.rampSampleTimeMs / 1000
        match st.manual_direction with
        | some d =>
          (handle_manual_ramp cfg conn d c.azimuth c.elevation dt
            (now - st.ramp_start_time)).map (fun cmds => (st, cmds))
        | none =>
          if st.target_az.isSome ∨ st.target_el.isSome then
            handle_target_ramp cfg conn st c.azimuth c.elevation dt
          else if st.stopping then handle_soft_stop conn st now
          else .ok (st, []))

/-- Modelled from the claim text of C2 only (not from the source): the
candidate set "az, az + 360 if az + 360 is within the mode range, az - 360 if
az - 360 is at least 0". Compare with smart_candidates, which the code builds. -/
def claim_candidates (mode a : ℚ) : List ℚ :=
  [a] ++ (if a + 360 ≤ mode then [a + 360] else []) ++
    (if 0 ≤ a - 360 then [a - 360] else [])

theorem qdiv_ok {a b : ℚ} (hb : b ≠ 0) : qdiv a b = .ok (a / b) := by
  simp [qdiv, hb]

theorem epbind_ok {α β : Type} (a : α) (f : α → Except PyErr β) :
    (Except.ok a : Except PyErr α) >>= f = f a := rfl

theorem eppure_eq {α : Type} (a : α) : (pure a : Except PyErr α) = .ok a := rfl

theorem pymod_bounds (a r : ℚ) (hr : 0 < r) :
    ∃ m, pymod a r = .ok m ∧ 0 ≤ m ∧ m < r := by
  refine ⟨a - r * ⌊a / r⌋, by simp [pymod, ne_of_gt hr], ?_, ?_⟩
  · have h1 : ((⌊a / r⌋ : ℚ)) ≤ a / r := Int.floor_le _
    have h2 : ((⌊a / r⌋ : ℚ)) * r ≤ a := (le_div_iff hr).mp h1
    linarith
  · have h1 : a / r < (⌊a / r⌋ : ℚ) + 1 := Int.lt_floor_add_one _
    have h2 : a < ((⌊a / r⌋ : ℚ) + 1) * r := (div_lt_iff hr).mp h1
    linarith

/-- Claim C5 counterexample: the motion controller's calibrated-status
computation does not apply the _calibrate_value guard; with an azimuth scale
factor of 0 and a complete status sample it raises ZeroDivisionError. -/
theorem claim_C5_counterexample :
    get_calibrated_status { defaultConfig with azimuthScaleFactor := 0 }
      { connected := true,
        status := some { azimuthRaw := some 100, elevationRaw := some 45 } } =
      .error .zeroDivision := by
  rfl

/-- Claim C5 (amended): _calibrate_value returns (raw + offset) / scale' where
scale' is the scale factor when its absolute value exceeds 1e-9 and 1.0
otherwise, and it never raises; but the motion controller's calibrated-status
computation divides by the configured scale factors directly without this
guard and raises ZeroDivisionError on a zero scale factor. -/
theorem claim_C5_amended (rawValue : Option ℚ) (offset scale : ℚ) :
    calibrate_value rawValue offset scale =
      .ok (rawValue.map (fun r =>
        (r + offset) / (if |scale| > 1 / 1000000000 then scale else 1))) := by
  cases rawValue with
  | none => rfl
  | some r =>
    by_cases h : |scale| > 1 / 1000000000
    · have hne : scale ≠ 0 := by
        intro h0
        rw [h0] at h
        norm_num at h
      simp only [calibrate_value, Option.map_some]
      rw [if_pos h, qdiv_ok hne]
      rfl
    · simp only [calibrate_value, Option.map_some]
      rw [if_neg h, qdiv_ok (one_ne_zero)]
      rfl

/-- Claim C7 counterexample: shortest_angular_delta can return exactly
-range/2, which is outside the claimed half-open interval (-range/2, range/2]:
with target 0, current 180, range 360 the result is -180. -/
theorem claim_C7_counterexample :
    shortest_angular_delta (some 0) (some 180) 360 = -180 ∧
      ¬ (-(360 / 2 : ℚ) < shortest_angular_delta (some 0) (some 180) 360) := by
  have h : shortest_angular_delta (some 0) (some 180) 360 = -180 := by
    rw [shortest_angular_delta]
    rw [dif_neg (by norm_num)]
    rw [loopHigh, if_neg (by norm_num)]
    rw [loopLow, if_neg (by norm_num)]
    norm_num
  refine ⟨h, ?_⟩
  rw [h]
  norm_num

/-- Claim C7 (amended): for every finite target, current and positive range,
shortest_angular_delta returns a value in the closed interval
[-range/2, range/2] (the lower endpoint is attainable), and wrap_azimuth
succeeds with a value in [0, range). -/
theorem claim_C7_amended (t c v r : ℚ) (hr : 0 < r) :
    (-(r / 2) ≤ shortest_angular_delta (some t) (some c) r ∧
      shortest_angular_delta (some t) (some c) r ≤ r / 2) ∧
    ∃ w, wrap_azimuth v r = .ok w ∧ 0 ≤ w ∧ w < r := by
  refine ⟨shortest_angular_delta_mem t c r hr, ?_⟩
  obtain ⟨m1, hm1, _, _⟩ := pymod_bounds v r hr
  obtain ⟨w, hw, hw0, hw1⟩ := pymod_bounds (m1 + r) r hr
  refine ⟨w, ?_, hw0, hw1⟩
  rw [wrap_azimuth, hm1]
  exact hw

/-- Claim C7 witness: the amended bounds instantiated at target 0,
current 180, range 360 and wrap input -30. -/
theorem claim_C7_amended_witness :
    (0:ℚ) < 360 ∧
    ((-(360 / 2 : ℚ) ≤ shortest_angular_delta (some 0) (some 180) 360 ∧
        shortest_angular_delta (some 0) (some 180) 360 ≤ 360 / 2) ∧
      ∃ w, wrap_azimuth (-30) 360 = .ok w ∧ 0 ≤ w ∧ w < 360) :=
  ⟨by norm_num, claim_C7_amended 0 180 (-30) 360 (by norm_num)⟩

/-- Claim C9: send_command raises a not-connected error when no serial handle
is open; when connected it writes the command terminated by a carriage return,
appending one only when the command does not already end with one. -/
theorem claim_C9 (conn : Conn) (command : String) :
    (conn.connected = false → send_command conn command = .error .notConnected) ∧
    (conn.connected = true →
      ∃ written, send_command conn command = .ok written ∧
        endsWithCarriageReturn written = true ∧
        (endsWithCarriageReturn command = true → written = command) ∧
        (endsWithCarriageReturn command = false → written = command ++ "\r")) := by
  constructor
  · intro h
    simp [send_command, h]
  · intro h
    by_cases hc : endsWithCarriageReturn command = true
    · refine ⟨command, ?_, hc, fun _ => rfl, fun hfalse => ?_⟩
      · simp [send_command, h, hc]
      · rw [hc] at hfalse
        exact absurd hfalse (by simp)
    · have hc2 : endsWithCarriageReturn command = false := by
        cases hcv : endsWithCarriageReturn command
        · rfl
        · exact absurd hcv hc
      refine ⟨command ++ "\r", ?_, ?_, fun htrue => absurd htrue hc, fun _ => rfl⟩
      · simp [send_command, h, hc2]
      · have hdata : (command ++ "\r").data = command.data ++ ['\r'] := by
          rw [String.data_append]
        simp [endsWithCarriageReturn, hdata, List.getLast?_concat]

/-- Claim C9 witness: the connected case instantiated at the heartbeat
command "C2". -/
theorem claim_C9_witness :
    ∃ written,
      send_command { connected := true, status := none } "C2" = .ok written ∧
        endsWithCarriageReturn written = true ∧
        (endsWithCarriageReturn "C2" = true → written = "C2") ∧
        (endsWithCarriageReturn "C2" = false → written = "C2" ++ "\r") :=
  (claim_C9 { connected := true, status := none } "C2").2 rfl

/-- The reconnect state entering the first attempt of a fresh automatic
reconnect cycle (unbounded attempts). -/
def reconnectStart : ReconnectState :=
  { reconnectActive := true, reconnectEnabled := true, reconnectAttempts := 0,
    maxReconnectAttempts := 0, reconnecting := false, statusAttempt := 0,
    lastErrorSet := false }

/-- Claim C3 counterexample: after a reconnect attempt succeeds in reopening
the port, the loop leaves the attempt counter at the successful attempt's
number (here 1), not 0; only an explicit connect() resets it. -/
theorem claim_C3_counterexample :
    (reconnect_iteration 1 30 reconnectStart false true).2.2 = .succeeded ∧
    (reconnect_iteration 1 30 reconnectStart false true).1.reconnectAttempts = 1 ∧
    ¬ (reconnect_iteration 1 30 reconnectStart false true).1.reconnectAttempts = 0 := by
  refine ⟨?_, ?_, ?_⟩ <;> simp [reconnect_iteration, reconnectStart]

/-- Claim C3 (amended): the delay before attempt n is
min(baseDelay * 1.5 ^ (n - 1), maxDelay); for nonnegative base delays the
delays are non-decreasing across consecutive attempts and never exceed
maxDelay. The attempt counter is reset to 0 by an explicit connect(); the
reconnect loop's success path increments the counter for the attempt and
leaves it there, only clearing the reconnecting flag. -/
theorem claim_C3_amended (baseDelay maxDelay : ℚ) (n : ℤ) (s : ReconnectState)
    (hb : 0 ≤ baseDelay) (hn : 1 ≤ n) :
    reconnect_delay baseDelay maxDelay n =
      min (baseDelay * (3 / 2) ^ (n - 1).toNat) maxDelay ∧
    reconnect_delay baseDelay maxDelay n ≤ reconnect_delay baseDelay maxDelay (n + 1) ∧
    reconnect_delay baseDelay maxDelay n ≤ maxDelay ∧
    (connect_reset s).reconnectAttempts = 0 ∧
    (s.reconnectActive = true → s.reconnectEnabled = true →
      ¬ (0 < s.maxReconnectAttempts ∧ s.maxReconnectAttempts ≤ s.reconnectAttempts) →
      (reconnect_iteration baseDelay maxDelay s false true).1.reconnectAttempts =
          s.reconnectAttempts + 1 ∧
        (reconnect_iteration baseDelay maxDelay s false true).1.reconnecting = false ∧
        (reconnect_iteration baseDelay maxDelay s false true).2.1 =
          some (reconnect_delay baseDelay maxDelay (s.reconnectAttempts + 1))) := by
  refine ⟨?_, ?_, min_le_right _ _, rfl, ?_⟩
  · rw [reconnect_delay, max_eq_left (by omega)]
  · unfold reconnect_delay
    have hexp : (max (n - 1) 0).toNat ≤ (max (n + 1 - 1) 0).toNat := by omega
    have hpow : ((3:ℚ) / 2) ^ (max (n - 1) 0).toNat ≤
        (3 / 2) ^ (max (n + 1 - 1) 0).toNat :=
      pow_le_pow_right (by norm_num) hexp
    exact min_le_min (mul_le_mul_of_nonneg_left hpow hb) le_rfl
  · intro ha he hmax
    refine ⟨?_, ?_, ?_⟩ <;> simp [reconnect_iteration, ha, he, hmax]

/-- Claim C3 witness: the amended statement instantiated at base delay 1,
max delay 30, attempt 1, from the fresh reconnect-cycle state. -/
theorem claim_C3_amended_witness :
    (0:ℚ) ≤ 1 ∧ (1:ℤ) ≤ 1 ∧
    (reconnect_delay 1 30 1 = min ((1:ℚ) * (3 / 2) ^ ((1:ℤ) - 1).toNat) 30 ∧
      reconnect_delay 1 30 1 ≤ reconnect_delay 1 30 (1 + 1) ∧
      reconnect_delay 1 30 1 ≤ 30 ∧
      (connect_reset reconnectStart).reconnectAttempts = 0 ∧
      (reconnectStart.reconnectActive = true →
        reconnectStart.reconnectEnabled = true →
        ¬ (0 < reconnectStart.maxReconnectAttempts ∧
            reconnectStart.maxReconnectAttempts ≤ reconnectStart.reconnectAttempts) →
        (reconnect_iteration 1 30 reconnectStart false true).1.reconnectAttempts =
            reconnectStart.reconnectAttempts + 1 ∧
          (reconnect_iteration 1 30 reconnectStart false true).1.reconnecting = false ∧
          (reconnect_iteration 1 30 reconnectStart false true).2.1 =
            some (reconnect_delay 1 30 (reconnectStart.reconnectAttempts + 1)))) :=
  ⟨by norm_num, le_refl 1,
    claim_C3_amended 1 30 1 reconnectStart (by norm_num) (le_refl 1)⟩

/-- Claim C10: the calibrated-status accessor returns no result unless both
raw fields are present in the sample; consequently a one-axis sample makes a
ramped control-loop tick defer, makes set_target skip the wrap-overlap
disambiguation (storing the requested azimuth unchanged), and makes
stop_motion fall back to an immediate hard stop with the stopping flag
cleared. -/
theorem claim_C10 (cfg : RotorConfig) (conn : Conn) (st : RotorState)
    (sample : StatusSample) (a : ℚ) (el : Option ℚ) (now : ℚ)
    (hs : conn.status = some sample)
    (hmiss : sample.azimuthRaw = none ∨ sample.elevationRaw = none) :
    get_calibrated_status cfg conn = .ok none ∧
    control_tick cfg conn st now = .ok (st, []) ∧
    (cfg.rampEnabled = true → 360 < cfg.azimuthMode →
      set_target cfg conn st (some a) el now =
        .ok ({ st with target_az := some a, target_el := el,
                       manual_direction := none, stopping := false,
                       ramp_start_time := now }, [])) ∧
    (cfg.rampEnabled = true → conn.connected = true →
      stop_motion cfg conn st now =
        .ok ({ st with manual_direction := none, target_az := none,
                       target_el := none, stopping := false,
                       stop_phase_start := now }, ["S\r"])) := by
  obtain ⟨sa, se⟩ := sample
  have hcal : get_calibrated_status cfg conn = .ok none := by
    rw [get_calibrated_status, hs]
    rcases hmiss with hm | hm <;> simp only at hm <;> subst hm
    · cases se <;> rfl
    · cases sa <;> rfl
  have hS : send_command conn "S" =
      (if ¬ conn.connected then .error .notConnected else .ok "S\r") := by
    rw [send_command]
    have : endsWithCarriageReturn "S" = false := by decide
    rw [this]
    rfl
  refine ⟨hcal, ?_, ?_, ?_⟩
  · rw [control_tick]
    by_cases hc : conn.connected
    · by_cases hre : cfg.rampEnabled <;> simp [hc, hre, hcal, Except.bind]
    · simp [hc]
  · intro hre hmode
    rw [set_target]
    simp [hmode, hcal, hre, epbind_ok, eppure_eq, Except.bind, Except.pure, pure]
  · intro hre hc
    rw [stop_motion]
    simp [hre, hc, hcal, hS, Except.bind, Except.map]

/-- Claim C10 witness: instantiated with an azimuth-only sample in a
wrap-overlap, ramp-enabled configuration. -/
theorem claim_C10_witness :
    get_calibrated_status { defaultConfig with rampEnabled := true, azimuthMode := 450 }
        { connected := true, status := some { azimuthRaw := some 5, elevationRaw := none } } =
      .ok none ∧
    control_tick { defaultConfig with rampEnabled := true, azimuthMode := 450 }
        { connected := true, status := some { azimuthRaw := some 5, elevationRaw := none } }
        initState 0 = .ok (initState, []) ∧
    (({ defaultConfig with rampEnabled := true, azimuthMode := 450 } :
        RotorConfig).rampEnabled = true →
      360 < ({ defaultConfig with rampEnabled := true, azimuthMode := 450 } :
        RotorConfig).azimuthMode →
      set_target { defaultConfig with rampEnabled := true, azimuthMode := 450 }
          { connected := true, status := some { azimuthRaw := some 5, elevationRaw := none } }
          initState (some 10) none 0 =
        .ok ({ initState with target_az := some 10, target_el := none,
                              manual_direction := none, stopping := false,
                              ramp_start_time := 0 }, [])) ∧
    (({ defaultConfig with rampEnabled := true, azimuthMode := 450 } :
        RotorConfig).rampEnabled = true →
      ({ connected := true,
         status := some { azimuthRaw := some 5, elevationRaw := none } } :
        Conn).connected = true →
      stop_motion { defaultConfig with rampEnabled := true, azimuthMode := 450 }
          { connected := true, status := some { azimuthRaw := some 5, elevationRaw := none } }
          initState 0 =
        .ok ({ initState with manual_direction := none, target_az := none,
                              target_el := none, stopping := false,
                              stop_phase_start := 0 }, ["S\r"])) :=
  claim_C10 _ _ initState { azimuthRaw := some 5, elevationRaw := none } 10 none 0
    rfl (Or.inr rfl)

/-- A ramping configuration with the default limits (azimuth 0..360,
elevation 0..90). -/
def cfgRampDefault : RotorConfig := { defaultConfig with rampEnabled := true }

/-- Claim C1 counterexample: set_target performs no clamping, so a request of
azimuth 500 / elevation 200 is stored as the resolved target even though the
live limits are azimuth <= 360 and elevation <= 90. -/
theorem claim_C1_counterexample :
    set_target cfgRampDefault { connected := false, status := none } initState
        (some 500) (some 200) 0 =
      .ok ({ initState with target_az := some 500, target_el := some 200 }, []) ∧
    cfgRampDefault.azimuthMax = 360 ∧ cfgRampDefault.elevationMax = 90 ∧
    ¬ ((500:ℚ) ≤ 360) ∧ ¬ ((200:ℚ) ≤ 90) := by
  refine ⟨?_, rfl, rfl, by norm_num, by norm_num⟩
  rw [set_target]
  norm_num [cfgRampDefault, defaultConfig, epbind_ok, eppure_eq, initState]

/-- Claim C1 (amended): set_target stores the requested targets without
clamping them to the configured limits, so the stored targets lie within
[azimuthMin, azimuthMax] x [elevationMin, elevationMax] exactly when the
requested values already do: with azimuthMode at most 360 and requests inside
the limits, the stored azimuth and elevation targets equal the requests and
lie within the limits. The ramped Goto branch likewise emits its position
commands without clamping. -/
theorem claim_C1_amended (cfg : RotorConfig) (conn : Conn) (st : RotorState)
    (a e now : ℚ) (st1 : RotorState) (cmds : List String)
    (hmode : cfg.azimuthMode ≤ 360)
    (ha1 : cfg.azimuthMin ≤ a) (ha2 : a ≤ cfg.azimuthMax)
    (he1 : cfg.elevationMin ≤ e) (he2 : e ≤ cfg.elevationMax)
    (hrun : set_target cfg conn st (some a) (some e) now = .ok (st1, cmds)) :
    (st1.target_az = some a ∧ cfg.azimuthMin ≤ a ∧ a ≤ cfg.azimuthMax) ∧
    (st1.target_el = some e ∧ cfg.elevationMin ≤ e ∧ e ≤ cfg.elevationMax) := by
  have hm : ¬ 360 < cfg.azimuthMode := not_lt.mpr hmode
  rw [set_target] at hrun
  simp only [hm, if_false, epbind_ok, eppure_eq] at hrun
  by_cases hre : cfg.rampEnabled
  · simp only [hre, if_true, eppure_eq, Except.ok.injEq, Prod.mk.injEq] at hrun
    obtain ⟨h1, _⟩ := hrun
    rw [← h1]
    exact ⟨⟨rfl, ha1, ha2⟩, rfl, he1, he2⟩
  · simp only [hre, if_false] at hrun
    cases hsend : send_direct_target cfg conn (some a) (some e) with
    | error err =>
      rw [hsend] at hrun
      cases hrun
    | ok cs =>
      rw [hsend] at hrun
      simp only [epbind_ok, eppure_eq, Except.ok.injEq, Prod.mk.injEq] at hrun
      rcases hrun with ⟨rfl, rfl⟩
      exact ⟨⟨rfl, ha1, ha2⟩, rfl, he1, he2⟩

/-- Claim C1 witness: the amended statement at the default limits with a
request of azimuth 100, elevation 50. -/
theorem claim_C1_amended_witness :
    cfgRampDefault.azimuthMode ≤ 360 ∧
    (({ initState with target_az := some 100, target_el := some 50 } :
        RotorState).target_az = some 100 ∧
      cfgRampDefault.azimuthMin ≤ 100 ∧ (100:ℚ) ≤ cfgRampDefault.azimuthMax) ∧
    (({ initState with target_az := some 100, target_el := some 50 } :
        RotorState).target_el = some 50 ∧
      cfgRampDefault.elevationMin ≤ 50 ∧ (50:ℚ) ≤ cfgRampDefault.elevationMax) := by
  refine ⟨by norm_num [cfgRampDefault, defaultConfig], ?_⟩
  refine claim_C1_amended cfgRampDefault { connected := false, status := none }
    initState 100 50 0 _ []
    (by norm_num [cfgRampDefault, defaultConfig])
    (by norm_num [cfgRampDefault, defaultConfig])
    (by norm_num [cfgRampDefault, defaultConfig])
    (by norm_num [cfgRampDefault, defaultConfig])
    (by norm_num [cfgRampDefault, defaultConfig])
    ?_
  rw [set_target]
  norm_num [cfgRampDefault, defaultConfig, epbind_ok, eppure_eq, initState]

theorem py_min_go_mem (cur : ℚ) :
    ∀ (l : List ℚ) (best : ℚ), py_min_go cur best l = best ∨ py_min_go cur best l ∈ l := by
  intro l
  induction l with
  | nil => intro best; left; rfl
  | cons c cs ih =>
    intro best
    rw [py_min_go]
    by_cases hc : |c - cur| < |best - cur|
    · rw [if_pos hc]
      rcases ih c with h | h
      · right; rw [h]; exact List.mem_cons_self c cs
      · right; exact List.mem_cons_of_mem c h
    · rw [if_neg hc]
      rcases ih best with h | h
      · left; exact h
      · right; exact List.mem_cons_of_mem c h

theorem py_min_go_le (cur : ℚ) :
    ∀ (l : List ℚ) (best : ℚ),
      |py_min_go cur best l - cur| ≤ |best - cur| ∧
        ∀ x ∈ l, |py_min_go cur best l - cur| ≤ |x - cur| := by
  intro l
  induction l with
  | nil =>
    intro best
    exact ⟨le_refl _, fun x hx => absurd hx (List.not_mem_nil x)⟩
  | cons c cs ih =>
    intro best
    rw [py_min_go]
    by_cases hc : |c - cur| < |best - cur|
    · rw [if_pos hc]
      obtain ⟨ih1, ih2⟩ := ih c
      refine ⟨le_trans ih1 (le_of_lt hc), fun x hx => ?_⟩
      rcases List.mem_cons.mp hx with rfl | hx2
      · exact ih1
      · exact ih2 x hx2
    · rw [if_neg hc]
      obtain ⟨ih1, ih2⟩ := ih best
      refine ⟨ih1, fun x hx => ?_⟩
      rcases List.mem_cons.mp hx with rfl | hx2
      · exact le_trans ih1 (not_lt.mp hc)
      · exact ih2 x hx2

/-- The wrap-overlap configuration used to exercise the smart azimuth
disambiguation. -/
def cfg450 : RotorConfig :=
  { defaultConfig with azimuthMode := 450, rampEnabled := true }

/-- Claim C2 counterexample: for a request of azimuth 360 in mode 450 with
current azimuth 10, the code adds az - 360 only when az > 360, so it resolves
to 360; the claimed candidate set also contains 0 (since 360 - 360 >= 0),
whose distance to the current azimuth is strictly smaller, so the claimed
minimum 0 is not what the code stores. -/
theorem claim_C2_counterexample :
    set_target cfg450
        { connected := true,
          status := some { azimuthRaw := some 10, elevationRaw := some 0 } }
        initState (some 360) none 0 =
      .ok ({ initState with target_az := some 360 }, []) ∧
    (0:ℚ) ∈ claim_candidates 450 360 ∧
    |(0:ℚ) - 10| < |(360:ℚ) - 10| := by
  refine ⟨?_, ?_, by norm_num⟩
  · rw [set_target]
    norm_num [cfg450, defaultConfig, initState, get_calibrated_status, qdiv,
      epbind_ok, eppure_eq, smart_tail, py_min_go]
  · norm_num [claim_candidates]

/-- Claim C2 (amended): in a wrap-overlap mode with a calibrated status
available, the resolved azimuth is the earliest minimum-distance member of
the code's candidate list: az, then az + 360 when az + 360 <= mode, then
az - 360 when az > 360 (not merely when az - 360 >= 0); with mode 450,
current azimuth 370 and a request of 10 it resolves to 370. -/
theorem claim_C2_amended (cfg : RotorConfig) (conn : Conn) (st : RotorState)
    (a : ℚ) (el : Option ℚ) (now : ℚ) (c : CalStatus)
    (st1 : RotorState) (cmds : List String)
    (hmode : 360 < cfg.azimuthMode)
    (hcal : get_calibrated_status cfg conn = .ok (some c))
    (hrun : set_target cfg conn st (some a) el now = .ok (st1, cmds)) :
    ∃ b, st1.target_az = some b ∧
      b ∈ smart_candidates cfg a ∧
      (∀ x ∈ smart_candidates cfg a, |b - c.azimuth| ≤ |x - c.azimuth|) ∧
      (cfg.azimuthMode = 450 → c.azimuth = 370 → a = 10 → b = 370) := by
  have hb : st1.target_az = some (py_min_go c.azimuth a (smart_tail cfg a)) := by
    rw [set_target] at hrun
    simp only [hmode, if_true, hcal, epbind_ok, eppure_eq] at hrun
    by_cases hre : cfg.rampEnabled
    · simp only [hre, if_true, eppure_eq, Except.ok.injEq, Prod.mk.injEq] at hrun
      rcases hrun with ⟨rfl, rfl⟩
      rfl
    · simp only [hre, if_false] at hrun
      cases hsend : send_direct_target cfg conn
          (some (py_min_go c.azimuth a (smart_tail cfg a))) el with
      | error err =>
        rw [hsend] at hrun
        cases hrun
      | ok cs =>
        rw [hsend] at hrun
        simp only [epbind_ok, eppure_eq, Except.ok.injEq, Prod.mk.injEq] at hrun
        rcases hrun with ⟨rfl, rfl⟩
        rfl
  refine ⟨py_min_go c.azimuth a (smart_tail cfg a), hb, ?_, ?_, ?_⟩
  · rcases py_min_go_mem c.azimuth (smart_tail cfg a) a with h | h
    · rw [h]; exact List.mem_cons_self _ _
    · exact List.mem_cons_of_mem _ h
  · intro x hx
    obtain ⟨h1, h2⟩ := py_min_go_le c.azimuth (smart_tail cfg a) a
    rcases List.mem_cons.mp hx with rfl | hx2
    · exact h1
    · exact h2 x hx2
  · intro hm450 hcur ha
    subst ha
    rw [hcur, smart_tail, hm450]
    norm_num [py_min_go]

/-- Claim C2 witness: the amended statement at mode 450, current calibrated
azimuth 370, request 10, where the stored target is 370. -/
theorem claim_C2_amended_witness :
    (360:ℚ) < cfg450.azimuthMode ∧
    ∃ b, ({ initState with target_az := some 370 } : RotorState).target_az = some b ∧
      b ∈ smart_candidates cfg450 10 ∧
      (∀ x ∈ smart_candidates cfg450 10, |b - (370:ℚ)| ≤ |x - 370|) ∧
      (cfg450.azimuthMode = 450 → (370:ℚ) = 370 → (10:ℚ) = 10 → b = 370) := by
  refine ⟨by norm_num [cfg450, defaultConfig], ?_⟩
  have hcal : get_calibrated_status cfg450
      { connected := true,
        status := some { azimuthRaw := some 370, elevationRaw := some 0 } } =
      .ok (some { azimuth := 370, elevation := 0 }) := by
    rw [get_calibrated_status]
    norm_num [cfg450, defaultConfig, qdiv, epbind_ok, eppure_eq]
  have hrun : set_target cfg450
      { connected := true,
        status := some { azimuthRaw := some 370, elevationRaw := some 0 } }
      initState (some 10) none 0 =
      .ok ({ initState with target_az := some 370 }, []) := by
    rw [set_target]
    norm_num [cfg450, defaultConfig, initState, get_calibrated_status, qdiv,
      epbind_ok, eppure_eq, smart_tail, py_min_go]
  exact claim_C2_amended cfg450 _ initState 10 none 0
    { azimuth := 370, elevation := 0 } _ []
    (by norm_num [cfg450, defaultConfig]) hcal hrun

/-- Claim C4: on a ramped Goto tick with an azimuth target, when the absolute
wrap-aware shortest delta is below 0.5 degrees the azimuth target is cleared
and no azimuth step is emitted; otherwise the commanded azimuth steps from
the current azimuth toward the target by at most speed * dt, never past it
(the step never exceeds the remaining delta and has its sign); elevation
behaves identically with the plain difference. In particular, with target
100, current 0, speed 4 deg/s and tick 0.4 s, the tick commands azimuth
0 + 8/5, an advance of at most 1.6 degrees toward 100. -/
theorem claim_C4 (cfg : RotorConfig) (tel : Option ℚ)
    (taz curAz curEl dt delta : ℚ)
    (hsp : 0 ≤ cfg.azimuthSpeedDegPerSec)
    (hspe : 0 ≤ cfg.elevationSpeedDegPerSec) (hdt : 0 ≤ dt)
    (hdelta : delta = shortest_angular_delta (some taz) (some curAz) cfg.azimuthMode) :
    (|delta| < 1 / 2 →
      (target_ramp_step cfg (some taz) tel curAz curEl dt).newTargetAz = none ∧
      (target_ramp_step cfg (some taz) tel curAz curEl dt).nextAzTarget = none) ∧
    (1 / 2 ≤ |delta| →
      ∃ nxt, (target_ramp_step cfg (some taz) tel curAz curEl dt).nextAzTarget = some nxt ∧
        (target_ramp_step cfg (some taz) tel curAz curEl dt).newTargetAz = some taz ∧
        |nxt - curAz| ≤ cfg.azimuthSpeedDegPerSec * dt ∧
        |nxt - curAz| ≤ |delta| ∧ 0 ≤ (nxt - curAz) * delta) ∧
    (∀ telv, tel = some telv →
      (|telv - curEl| < 1 / 2 →
        (target_ramp_step cfg (some taz) tel curAz curEl dt).newTargetEl = none ∧
        (target_ramp_step cfg (some taz) tel curAz curEl dt).nextElTarget = none) ∧
      (1 / 2 ≤ |telv - curEl| →
        ∃ nxt, (target_ramp_step cfg (some taz) tel curAz curEl dt).nextElTarget = some nxt ∧
          (target_ramp_step cfg (some taz) tel curAz curEl dt).newTargetEl = some telv ∧
          |nxt - curEl| ≤ cfg.elevationSpeedDegPerSec * dt ∧
          |nxt - curEl| ≤ |telv - curEl| ∧
          0 ≤ (nxt - curEl) * (telv - curEl))) ∧
    (target_ramp_step { defaultConfig with rampEnabled := true }
        (some 100) none 0 0 (2 / 5)).nextAzTarget = some (8 / 5) := by
  have hstep : ∀ (sp d : ℚ), 0 ≤ sp * dt → 1 / 2 ≤ |d| →
      |min |d| (sp * dt) * (if 0 < d then 1 else -1)| ≤ sp * dt ∧
      |min |d| (sp * dt) * (if 0 < d then 1 else -1)| ≤ |d| ∧
      0 ≤ min |d| (sp * dt) * (if 0 < d then 1 else -1) * d := by
    intro sp d hsp2 hd
    have hmin0 : 0 ≤ min |d| (sp * dt) := le_min (abs_nonneg d) hsp2
    have habs : |min |d| (sp * dt) * (if 0 < d then 1 else -1)| = min |d| (sp * dt) := by
      by_cases hpos : 0 < d
      · rw [if_pos hpos, mul_one, abs_of_nonneg hmin0]
      · rw [if_neg hpos]
        rw [abs_mul]
        norm_num
        exact hsp2
    refine ⟨by rw [habs]; exact min_le_right _ _, by rw [habs]; exact min_le_left _ _, ?_⟩
    by_cases hpos : 0 < d
    · rw [if_pos hpos, mul_one]
      exact mul_nonneg hmin0 (le_of_lt hpos)
    · rw [if_neg hpos]
      have hdneg : d ≤ 0 := not_lt.mp hpos
      calc (0:ℚ) ≤ min |d| (sp * dt) * (-d) := mul_nonneg hmin0 (by linarith)
        _ = min |d| (sp * dt) * -1 * d := by ring
  refine ⟨?_, ?_, ?_, ?_⟩
  · intro hlt
    rw [target_ramp_step.eq_def]
    dsimp only
    rw [← hdelta, if_pos hlt]
    exact ⟨rfl, rfl⟩
  · intro hge
    have hnlt : ¬ |delta| < 1 / 2 := not_lt.mpr hge
    obtain ⟨hb1, hb2, hb3⟩ := hstep cfg.azimuthSpeedDegPerSec delta
      (mul_nonneg hsp hdt) hge
    refine ⟨curAz + min |delta| (cfg.azimuthSpeedDegPerSec * dt) *
      (if 0 < delta then 1 else -1), ?_, ?_, ?_, ?_, ?_⟩
    · rw [target_ramp_step.eq_def]
      dsimp only
      rw [← hdelta, if_neg hnlt]
    · rw [target_ramp_step.eq_def]
      dsimp only
      rw [← hdelta, if_neg hnlt]
    · simpa using hb1
    · simpa using hb2
    · simpa using hb3
  · rintro telv rfl
    constructor
    · intro hlt
      rw [target_ramp_step.eq_def]
      dsimp only
      rw [if_pos hlt]
      exact ⟨rfl, rfl⟩
    · intro hge
      have hnlt : ¬ |telv - curEl| < 1 / 2 := not_lt.mpr hge
      obtain ⟨hb1, hb2, hb3⟩ := hstep cfg.elevationSpeedDegPerSec (telv - curEl)
        (mul_nonneg hspe hdt) hge
      refine ⟨curEl + min |telv - curEl| (cfg.elevationSpeedDegPerSec * dt) *
        (if 0 < telv - curEl then 1 else -1), ?_, ?_, ?_, ?_, ?_⟩
      · rw [target_ramp_step.eq_def]
        dsimp only
        rw [if_neg hnlt]
      · rw [target_ramp_step.eq_def]
        dsimp only
        rw [if_neg hnlt]
      · simpa using hb1
      · simpa using hb2
      · simpa using hb3
  · have hdel100 : shortest_angular_delta (some 100) (some 0)
        ({ defaultConfig with rampEnabled := true } : RotorConfig).azimuthMode = 100 := by
      rw [shortest_angular_delta]
      rw [dif_neg (by norm_num [defaultConfig])]
      show loopLow _ _ (loopHigh _ _ (100 - 0)) = 100
      rw [loopHigh, if_neg (by norm_num [defaultConfig])]
      rw [loopLow, if_neg (by norm_num [defaultConfig])]
      norm_num
    rw [target_ramp_step.eq_def]
    dsimp only
    rw [hdel100]
    rw [if_neg (by norm_num)]
    have : min |(100:ℚ)| (({ defaultConfig with rampEnabled := true } :
        RotorConfig).azimuthSpeedDegPerSec * (2 / 5)) = 8 / 5 := by
      norm_num [defaultConfig]
    simp only [this]
    norm_num

/-- Claim C4 witness: the tick property instantiated at the spec scenario
(target 100, current 0, speed 4 deg/s, tick 0.4 s, delta 100). -/
theorem claim_C4_witness :
    (|(100:ℚ)| < 1 / 2 →
      (target_ramp_step { defaultConfig with rampEnabled := true }
          (some 100) none 0 0 (2 / 5)).newTargetAz = none ∧
      (target_ramp_step { defaultConfig with rampEnabled := true }
          (some 100) none 0 0 (2 / 5)).nextAzTarget = none) ∧
    (1 / 2 ≤ |(100:ℚ)| →
      ∃ nxt, (target_ramp_step { defaultConfig with rampEnabled := true }
            (some 100) none 0 0 (2 / 5)).nextAzTarget = some nxt ∧
        (target_ramp_step { defaultConfig with rampEnabled := true }
            (some 100) none 0 0 (2 / 5)).newTargetAz = some 100 ∧
        |nxt - 0| ≤ ({ defaultConfig with rampEnabled := true } :
            RotorConfig).azimuthSpeedDegPerSec * (2 / 5) ∧
        |nxt - 0| ≤ |(100:ℚ)| ∧ 0 ≤ (nxt - 0) * 100) ∧
    (∀ telv : ℚ, (none : Option ℚ) = some telv →
      (|telv - 0| < 1 / 2 →
        (target_ramp_step { defaultConfig with rampEnabled := true }
            (some 100) none 0 0 (2 / 5)).newTargetEl = none ∧
        (target_ramp_step { defaultConfig with rampEnabled := true }
            (some 100) none 0 0 (2 / 5)).nextElTarget = none) ∧
      (1 / 2 ≤ |telv - 0| →
        ∃ nxt, (target_ramp_step { defaultConfig with rampEnabled := true }
              (some 100) none 0 0 (2 / 5)).nextElTarget = some nxt ∧
          (target_ramp_step { defaultConfig with rampEnabled := true }
              (some 100) none 0 0 (2 / 5)).newTargetEl = some telv ∧
          |nxt - 0| ≤ ({ defaultConfig with rampEnabled := true } :
              RotorConfig).elevationSpeedDegPerSec * (2 / 5) ∧
          |nxt - 0| ≤ |telv - 0| ∧ 0 ≤ (nxt - 0) * (telv - 0))) ∧
    (target_ramp_step { defaultConfig with rampEnabled := true }
        (some 100) none 0 0 (2 / 5)).nextAzTarget = some (8 / 5) := by
  have hdel : (100:ℚ) = shortest_angular_delta (some 100) (some 0)
      ({ defaultConfig with rampEnabled := true } : RotorConfig).azimuthMode := by
    rw [shortest_angular_delta]
    rw [dif_neg (by norm_num [defaultConfig])]
    show (100:ℚ) = loopLow _ _ (loopHigh _ _ (100 - 0))
    rw [loopHigh, if_neg (by norm_num [defaultConfig])]
    rw [loopLow, if_neg (by norm_num [defaultConfig])]
    norm_num
  exact claim_C4 { defaultConfig with rampEnabled := true } none 100 0 0 (2 / 5) 100
    (by norm_num [defaultConfig]) (by norm_num [defaultConfig]) (by norm_num) hdel

/-- Strict key order on (key, value) pairs. -/
def keyLT (a b : ℚ × ℚ) : Prop := a.1 < b.1

theorem lastTwo_snd_eq :
    ∀ (rest : List (ℚ × ℚ)) (p q : ℚ × ℚ),
      (lastTwo p q rest).2 = (q :: rest).getLast (List.cons_ne_nil q rest) := by
  intro rest
  induction rest with
  | nil => intro p q; rfl
  | cons r rs ih =>
    intro p q
    show (lastTwo q r rs).2 = (q :: r :: rs).getLast (List.cons_ne_nil q (r :: rs))
    rw [List.getLast_cons_cons]
    exact ih q r

theorem lastTwo_rel {R : (ℚ × ℚ) → (ℚ × ℚ) → Prop} :
    ∀ (rest : List (ℚ × ℚ)) (p q : ℚ × ℚ),
      (p :: q :: rest).Pairwise R → R (lastTwo p q rest).1 (lastTwo p q rest).2 := by
  intro rest
  induction rest with
  | nil =>
    intro p q hp
    exact (List.pairwise_cons.mp hp).1 q (List.mem_cons_self q [])
  | cons r rs ih =>
    intro p q hp
    exact ih q r (List.pairwise_cons.mp hp).2

theorem pairwise_rel_getLast {α : Type} {R : α → α → Prop} :
    ∀ (l : List α) (hne : l ≠ []), l.Pairwise R → ∀ e ∈ l,
      e = l.getLast hne ∨ R e (l.getLast hne) := by
  intro l
  induction l with
  | nil => intro hne; exact absurd rfl hne
  | cons a t ih =>
    intro hne hp e he
    cases t with
    | nil =>
      left
      simpa using he
    | cons b t2 =>
      rw [List.getLast_cons_cons]
      rcases List.mem_cons.mp he with rfl | he2
      · right
        have hR := (List.pairwise_cons.mp hp).1
        exact hR _ (List.getLast_mem (List.cons_ne_nil b t2))
      · exact ih (List.cons_ne_nil b t2) (List.pairwise_cons.mp hp).2 e he2

theorem segScan_mem (k v : ℚ) :
    ∀ (rest : List (ℚ × ℚ)) (p : ℚ × ℚ),
      (p :: rest).Pairwise keyLT → (k, v) ∈ rest →
      segScan k p rest = .ok (some v) := by
  intro rest
  induction rest with
  | nil => intro p _ hm; exact absurd hm (List.not_mem_nil _)
  | cons q rs ih =>
    intro p hp hm
    rcases List.mem_cons.mp hm with rfl | hm2
    · have hpq : p.1 < k :=
        (List.pairwise_cons.mp hp).1 (k, v) (List.mem_cons_self _ _)
      rw [segScan]
      rw [if_pos ⟨le_of_lt hpq, le_refl k⟩]
      rw [if_neg (ne_of_gt hpq)]
      rw [qdiv_ok (sub_ne_zero.mpr (ne_of_gt hpq))]
      show Except.ok (some (p.2 + (k - p.1) / (k - p.1) * (v - p.2))) = Except.ok (some v)
      rw [div_self (sub_ne_zero.mpr (ne_of_gt hpq))]
      norm_num
    · have hqk : q.1 < k :=
        (List.pairwise_cons.mp (List.pairwise_cons.mp hp).2).1 (k, v) hm2
      rw [segScan]
      rw [if_neg (fun h => absurd hqk (not_lt.mpr h.2))]
      exact ih q (List.pairwise_cons.mp hp).2 hm2

theorem segScan_total (k : ℚ) :
    ∀ (rs : List (ℚ × ℚ)) (p q : ℚ × ℚ),
      (p :: q :: rs).Pairwise keyLE → p.1 ≤ k →
      k ≤ ((q :: rs).getLast (List.cons_ne_nil q rs)).1 →
      ∃ y, segScan k p (q :: rs) = .ok (some y) := by
  intro rs
  induction rs with
  | nil =>
    intro p q hp hpk hkl
    rw [segScan]
    rw [if_pos ⟨hpk, hkl⟩]
    by_cases heq : q.1 = p.1
    · rw [if_pos heq]
      exact ⟨p.2, rfl⟩
    · rw [if_neg heq]
      rw [qdiv_ok (sub_ne_zero.mpr heq)]
      exact ⟨_, rfl⟩
  | cons r rs2 ih =>
    intro p q hp hpk hkl
    by_cases hkq : k ≤ q.1
    · rw [segScan]
      rw [if_pos ⟨hpk, hkq⟩]
      by_cases heq : q.1 = p.1
      · rw [if_pos heq]
        exact ⟨p.2, rfl⟩
      · rw [if_neg heq]
        rw [qdiv_ok (sub_ne_zero.mpr heq)]
        exact ⟨_, rfl⟩
    · rw [segScan]
      rw [if_neg (fun h => hkq h.2)]
      rw [List.getLast_cons_cons] at hkl
      exact ih q r (List.pairwise_cons.mp hp).2 (le_of_lt (not_le.mp hkq)) hkl

theorem interpCore_mem (k v : ℚ) (p0 p1 : ℚ × ℚ) (rest : List (ℚ × ℚ))
    (hp : (p0 :: p1 :: rest).Pairwise keyLT)
    (hm : (k, v) ∈ p0 :: p1 :: rest) :
    interpCore k (p0 :: p1 :: rest) = .ok (some v) := by
  have hp01 : p0.1 < p1.1 :=
    (List.pairwise_cons.mp hp).1 p1 (List.mem_cons_self _ _)
  by_cases hk0 : k ≤ p0.1
  · have hep0 : (k, v) = p0 := by
      rcases List.mem_cons.mp hm with h | h
      · exact h
      · exact absurd ((List.pairwise_cons.mp hp).1 (k, v) h) (not_lt.mpr hk0)
    rw [interpCore, if_pos hk0, qdiv_ok (sub_ne_zero.mpr (ne_of_gt hp01))]
    show Except.ok (some (p0.2 + (p1.2 - p0.2) / (p1.1 - p0.1) * (k - p0.1))) =
      Except.ok (some v)
    have hk : k = p0.1 := congrArg Prod.fst hep0
    have hv : v = p0.2 := congrArg Prod.snd hep0
    rw [hk, hv]
    norm_num
  · have hrel : keyLT (lastTwo p0 p1 rest).1 (lastTwo p0 p1 rest).2 :=
      lastTwo_rel rest p0 p1 hp
    have hmax : ∀ e ∈ p0 :: p1 :: rest,
        e = (lastTwo p0 p1 rest).2 ∨ keyLT e (lastTwo p0 p1 rest).2 := by
      intro e he
      have h := pairwise_rel_getLast (p0 :: p1 :: rest)
        (List.cons_ne_nil p0 (p1 :: rest)) hp e he
      rw [List.getLast_cons_cons] at h
      rw [lastTwo_snd_eq rest p0 p1]
      exact h
    by_cases hkl : (lastTwo p0 p1 rest).2.1 ≤ k
    · have he : (k, v) = (lastTwo p0 p1 rest).2 := by
        rcases hmax (k, v) hm with h | h
        · exact h
        · exact absurd h (not_lt.mpr hkl)
      rw [interpCore, if_neg hk0]
      dsimp only
      rw [if_pos hkl, qdiv_ok (sub_ne_zero.mpr (ne_of_gt hrel))]
      show Except.ok (some ((lastTwo p0 p1 rest).2.2 +
          ((lastTwo p0 p1 rest).2.2 - (lastTwo p0 p1 rest).1.2) /
            ((lastTwo p0 p1 rest).2.1 - (lastTwo p0 p1 rest).1.1) *
          (k - (lastTwo p0 p1 rest).2.1))) = Except.ok (some v)
      have hk : k = (lastTwo p0 p1 rest).2.1 := congrArg Prod.fst he
      have hv : v = (lastTwo p0 p1 rest).2.2 := congrArg Prod.snd he
      rw [hk, hv]
      norm_num
    · rw [interpCore, if_neg hk0]
      dsimp only
      rw [if_neg hkl]
      apply segScan_mem k v (p1 :: rest) p0 hp
      rcases List.mem_cons.mp hm with h | h
      · exact absurd (le_of_eq (congrArg Prod.fst h) : k ≤ p0.1) hk0
      · exact h

theorem interpCore_total (k : ℚ) (p0 p1 : ℚ × ℚ) (rest : List (ℚ × ℚ))
    (hp : (p0 :: p1 :: rest).Pairwise keyLT) :
    ∃ y, interpCore k (p0 :: p1 :: rest) = .ok (some y) := by
  have hp01 : p0.1 < p1.1 :=
    (List.pairwise_cons.mp hp).1 p1 (List.mem_cons_self _ _)
  by_cases hk0 : k ≤ p0.1
  · rw [interpCore, if_pos hk0, qdiv_ok (sub_ne_zero.mpr (ne_of_gt hp01))]
    exact ⟨_, rfl⟩
  · have hrel : keyLT (lastTwo p0 p1 rest).1 (lastTwo p0 p1 rest).2 :=
      lastTwo_rel rest p0 p1 hp
    by_cases hkl : (lastTwo p0 p1 rest).2.1 ≤ k
    · rw [interpCore, if_neg hk0]
      dsimp only
      rw [if_pos hkl, qdiv_ok (sub_ne_zero.mpr (ne_of_gt hrel))]
      exact ⟨_, rfl⟩
    · rw [interpCore, if_neg hk0]
      dsimp only
      rw [if_neg hkl]
      apply segScan_total k rest p0 p1
        (hp.imp (fun h => le_of_lt h)) (le_of_lt (not_le.mp hk0))
      have h := not_le.mp hkl
      rw [lastTwo_snd_eq rest p0 p1] at h
      exact le_of_lt h

theorem sortByKey_pairwise_keyLT (l : List (ℚ × ℚ))
    (hd : l.Pairwise (fun a b => a.1 ≠ b.1)) :
    (sortByKey l).Pairwise keyLT := by
  have hs : (sortByKey l).Pairwise keyLE := List.sorted_insertionSort keyLE l
  have hperm : (sortByKey l).Perm l := List.perm_insertionSort keyLE l
  have hne : (sortByKey l).Pairwise (fun a b => a.1 ≠ b.1) :=
    (List.Perm.pairwise_iff (fun h => h.symm) hperm).mpr hd
  exact (hs.and hne).imp (fun h => lt_of_le_of_ne h.1 h.2)

theorem interpCore_mem_list (k v : ℚ) (S : List (ℚ × ℚ))
    (hpw : S.Pairwise keyLT) (hmem : (k, v) ∈ S) (hlen : 2 ≤ S.length) :
    interpCore k S = .ok (some v) := by
  rcases S with _ | ⟨p0, _ | ⟨p1, rest⟩⟩
  · simp at hlen
  · simp at hlen
  · exact interpCore_mem k v p0 p1 rest hpw hmem

theorem interpCore_total_list (k : ℚ) (S : List (ℚ × ℚ))
    (hpw : S.Pairwise keyLT) (hlen : 2 ≤ S.length) :
    ∃ y, interpCore k S = .ok (some y) := by
  rcases S with _ | ⟨p0, _ | ⟨p1, rest⟩⟩
  · simp at hlen
  · simp at hlen
  · exact interpCore_total k p0 p1 rest hpw

/-- Claim C6 counterexample: for the two-point table raw 0 -> actual 50,
raw 10 -> actual 50 (duplicate actual values), interpolation at the table
point (0, 50) returns 50, but the inverse interpolation of 50 divides by the
zero span of the duplicate actual values and raises ZeroDivisionError, so the
claimed round trip does not return a value within 0.5 of the raw input. -/
theorem claim_C6_counterexample :
    (2 ≤ ([⟨0, 50⟩, ⟨10, 50⟩] : List CalPoint).length) ∧
    (⟨0, 50⟩ : CalPoint) ∈ ([⟨0, 50⟩, ⟨10, 50⟩] : List CalPoint) ∧
    interpolate_calibration 0 [⟨0, 50⟩, ⟨10, 50⟩] = .ok (some 50) ∧
    inverse_interpolate_calibration 50 [⟨0, 50⟩, ⟨10, 50⟩] = .error .zeroDivision := by
  refine ⟨by norm_num, by simp, ?_, ?_⟩
  · rw [interpolate_calibration]
    norm_num [sortByKey, List.insertionSort, List.orderedInsert, interpCore,
      keyLE, qdiv, Except.map]
  · rw [inverse_interpolate_calibration]
    norm_num [sortByKey, List.insertionSort, List.orderedInsert, interpCore,
      keyLE, qdiv, Except.map]

/-- Claim C6 (amended): for every calibration table with at least 2 points
whose raw values are pairwise distinct and whose actual values are pairwise
distinct, interpolation at a table point returns exactly its actual value
(within 0.1) and the inverse interpolation of that result returns exactly the
point's raw value (within 0.5); with duplicate raw or actual values the edge
slopes divide by zero and raise instead. -/
theorem claim_C6_amended (pts : List CalPoint) (p : CalPoint)
    (h2 : 2 ≤ pts.length)
    (hraw : pts.Pairwise (fun x y => x.raw ≠ y.raw))
    (hact : pts.Pairwise (fun x y => x.actual ≠ y.actual))
    (hp : p ∈ pts) :
    ∃ y, interpolate_calibration p.raw pts = .ok (some y) ∧ |y - p.actual| ≤ 1 / 10 ∧
      ∃ x, inverse_interpolate_calibration y pts = .ok (some x) ∧ |x - p.raw| ≤ 1 / 2 := by
  have hfwd : interpolate_calibration p.raw pts = .ok (some p.actual) := by
    rw [interpolate_calibration, if_neg (by omega)]
    apply interpCore_mem_list
    · exact sortByKey_pairwise_keyLT _ (List.pairwise_map.mpr hraw)
    · rw [sortByKey, List.Perm.mem_iff (List.perm_insertionSort keyLE _)]
      exact List.mem_map.mpr ⟨p, hp, rfl⟩
    · rw [sortByKey, (List.perm_insertionSort keyLE _).length_eq, List.length_map]
      exact h2
  have hbwd : inverse_interpolate_calibration p.actual pts = .ok (some p.raw) := by
    rw [inverse_interpolate_calibration, if_neg (by omega)]
    apply interpCore_mem_list
    · exact sortByKey_pairwise_keyLT _ (List.pairwise_map.mpr hact)
    · rw [sortByKey, List.Perm.mem_iff (List.perm_insertionSort keyLE _)]
      exact List.mem_map.mpr ⟨p, hp, rfl⟩
    · rw [sortByKey, (List.perm_insertionSort keyLE _).length_eq, List.length_map]
      exact h2
  exact ⟨p.actual, hfwd, by simp, p.raw, hbwd, by simp⟩

/-- Claim C6 witness: the round trip at the point (raw 2, actual 0) of the
docstring example table. -/
theorem claim_C6_amended_witness :
    ∃ y, interpolate_calibration (2:ℚ) [⟨2, 0⟩, ⟨47, 90⟩] = .ok (some y) ∧
      |y - 0| ≤ 1 / 10 ∧
      ∃ x, inverse_interpolate_calibration y [⟨2, 0⟩, ⟨47, 90⟩] = .ok (some x) ∧
        |x - 2| ≤ 1 / 2 :=
  claim_C6_amended [⟨2, 0⟩, ⟨47, 90⟩] ⟨2, 0⟩ (by norm_num)
    (by decide) (by decide) (by decide)

/-- Claim C8 counterexample: a table with 2 points but duplicate raw values
makes the edge-slope computation divide by zero: interpolation raises
ZeroDivisionError instead of returning a numeric value. -/
theorem claim_C8_counterexample :
    (2 ≤ ([⟨0, 0⟩, ⟨0, 10⟩] : List CalPoint).length) ∧
    interpolate_calibration 0 [⟨0, 0⟩, ⟨0, 10⟩] = .error .zeroDivision := by
  refine ⟨by norm_num, ?_⟩
  rw [interpolate_calibration]
  norm_num [sortByKey, List.insertionSort, List.orderedInsert, interpCore,
    keyLE, qdiv, Except.map]

/-- Claim C8 (amended): both interpolation functions return no result exactly
for tables with fewer than 2 points; with at least 2 points they return a
numeric value for every input provided the sort-key values (raw for the
forward direction, actual for the inverse) are pairwise distinct — with
duplicate key values at the sorted edges the slope computation divides by
zero and raises instead of returning a value. -/
theorem claim_C8_amended :
    (∀ (pts : List CalPoint) (k : ℚ), pts.length < 2 →
        interpolate_calibration k pts = .ok none ∧
        inverse_interpolate_calibration k pts = .ok none) ∧
    (∀ (pts : List CalPoint) (k : ℚ), 2 ≤ pts.length →
        pts.Pairwise (fun x y => x.raw ≠ y.raw) →
        ∃ y, interpolate_calibration k pts = .ok (some y)) ∧
    (∀ (pts : List CalPoint) (k : ℚ), 2 ≤ pts.length →
        pts.Pairwise (fun x y => x.actual ≠ y.actual) →
        ∃ y, inverse_interpolate_calibration k pts = .ok (some y)) := by
  refine ⟨?_, ?_, ?_⟩
  · intro pts k h
    exact ⟨by rw [interpolate_calibration, if_pos h],
      by rw [inverse_interpolate_calibration, if_pos h]⟩
  · intro pts k h2 hraw
    rw [interpolate_calibration, if_neg (by omega)]
    apply interpCore_total_list
    · exact sortByKey_pairwise_keyLT _ (List.pairwise_map.mpr hraw)
    · rw [sortByKey, (List.perm_insertionSort keyLE _).length_eq, List.length_map]
      exact h2
  · intro pts k h2 hact
    rw [inverse_interpolate_calibration, if_neg (by omega)]
    apply interpCore_total_list
    · exact sortByKey_pairwise_keyLT _ (List.pairwise_map.mpr hact)
    · rw [sortByKey, (List.perm_insertionSort keyLE _).length_eq, List.length_map]
      exact h2

/-- Claim C8 witness: a 1-point table yields no result; a distinct-key
2-point table yields a value in both directions at input 7. -/
theorem claim_C8_amended_witness :
    (interpolate_calibration 5 [⟨1, 2⟩] = .ok none ∧
      inverse_interpolate_calibration 5 [⟨1, 2⟩] = .ok none) ∧
    (∃ y, interpolate_calibration 7 [⟨0, 0⟩, ⟨10, 100⟩] = .ok (some y)) ∧
    (∃ y, inverse_interpolate_calibration 7 [⟨0, 0⟩, ⟨10, 100⟩] = .ok (some y)) :=
  ⟨claim_C8_amended.1 [⟨1, 2⟩] 5 (by norm_num),
   claim_C8_amended.2.1 [⟨0, 0⟩, ⟨10, 100⟩] 7 (by norm_num) (by decide),
   claim_C8_amended.2.2 [⟨0, 0⟩, ⟨10, 100⟩] 7 (by norm_num) (by decide)⟩
